import Mathlib

/-!
# Verification of the lerobot_piper host/client relay loop

Shallow embedding of the Piper teleoperation bridge:

* `src/lerobot/robots/piper/piper.py`          — the `Piper` driver
* `src/lerobot/robots/piper/piper_client.py`   — the `PiperClient` relay
* `src/lerobot/robots/piper/piper_host.py`     — the single-arm host loop
* `src/lerobot/robots/bimanual_piper_follower/bimanual_piper_host.py`
                                               — the bimanual host loop

Conventions of the embedding:

* Python dicts that carry action/observation payloads are modelled as
  association lists `List (String × PyVal)` (Python dicts preserve
  insertion order; keys are unique in any dict produced by `json.loads`).
* `json.dumps` on a single value succeeds exactly on JSON-representable
  values and raises `TypeError` on other Python objects (camera frames,
  ndarrays); this is the Boolean `serializable`.  `str(value)` is `pyStr`.
* Wall-clock times are exact integers: milliseconds for the single-arm
  host (its Python code compares seconds as floats against
  `watchdog_timeout_ms / 1000`; with exact arithmetic
  `now_s - last_s > T_ms / 1000  ↔  last_ms + T_ms < now_ms`), and
  seconds for the bimanual host (whose threshold `50_000_000` is compared
  in seconds directly).  The strict comparison `a - b > c` of the source
  is rendered `b + c < a`, which agrees with it for all real time values.
* One loop iteration's interaction with the outside world is an `Iter`
  record: the outcome of the non-blocking command receive (`CmdEvent`),
  the timestamps taken inside the iteration, and the driver observation
  returned by `get_observation()`.  The ZMQ receive and `json.loads` are
  library calls; their four possible outcomes at the `try` block are the
  four `CmdEvent` constructors, matching the `except` arms of the source.
-/

/-- A Python value carried in an action/observation mapping.
`num`/`str` stand for the JSON-representable values; `obj r` stands for a
non-JSON-serializable Python object (e.g. a camera frame) whose
`str(value)` rendering is `r`. -/
inductive PyVal where
  | num (n : Int)
  | str (s : String)
  | obj (r : String)
deriving DecidableEq, Repr

/-- `json.dumps(value)` succeeds (does not raise `TypeError`). -/
def serializable : PyVal → Bool
  | .num _ => true
  | .str _ => true
  | .obj _ => false

/-- Python `str(value)`. -/
def pyStr : PyVal → String
  | .num n => toString n
  | .str s => s
  | .obj r => r

/-- A Python dict payload: ordered association list. -/
abbrev PyDict := List (String × PyVal)

/-- Python `d.get(k)`: the value at key `k`, if present. -/
def dictGet (d : PyDict) (k : String) : Option PyVal :=
  (d.find? (fun kv => kv.1 == k)).map (·.2)

/-- Python `d.get(k, dflt)`. -/
def dictGetD (d : PyDict) (k : String) (dflt : PyVal) : PyVal :=
  (dictGet d k).getD dflt

/-- `piper_host.py` lines 86–92 (and `bimanual_piper_host.py` lines
100–106): build `serializable_observation` from the driver observation by
keeping each value that `json.dumps` accepts and replacing each value
that raises `TypeError` by `str(value)`. -/
def serializableObservation (obs : PyDict) : PyDict :=
  obs.map (fun kv => if serializable kv.2 then kv else (kv.1, .str (pyStr kv.2)))

/-! ## The `Piper` driver (`piper.py`) -/

namespace Piper

/-- `Piper._motors_ft` / `Piper.action_features` (piper.py lines 34–36,
46–48): the keys are `joint_i.pos` for `i = 0, …, 6`. -/
def actionFeaturesKeys : List String :=
  (List.range 7).map (fun i => "joint_" ++ toString i ++ ".pos")

/-- Modelled from the spec: `robot.action_space` is read by the host loop
(piper_host.py line 65) but the base `Robot` class defining it
(`lerobot/robots/robot.py`) is not among the available sources.  The spec
says the host "filter[s] the parsed mapping to the driver's recognized
action keys", so `action_space` is modelled as the key set of the
driver's `action_features`. -/
def actionSpace : List String := actionFeaturesKeys

/-- The leader-style key consulted first for joint `i` in
`Piper.send_action` (piper.py lines 97–105); joint 3 has no leader-style
key and is looked up only under `joint_3.pos`. -/
def leaderKey : Nat → Option String
  | 0 => some "shoulder_pan.pos"
  | 1 => some "shoulder_lift.pos"
  | 2 => some "elbow_flex.pos"
  | 3 => none
  | 4 => some "wrist_flex.pos"
  | 5 => some "wrist_roll.pos"
  | 6 => some "gripper.pos"
  | _ => none

/-- The `joint_i.pos` fallback key for joint `i`. -/
def jointKey (i : Nat) : String := "joint_" ++ toString i ++ ".pos"

/-- `Piper.send_action` lines 97–105: the `positions` list handed to
`self.sdk.set_joint_positions`, transcribed literally. -/
def sendActionPositions (action : PyDict) : List PyVal :=
  [ dictGetD action "shoulder_pan.pos" (dictGetD action "joint_0.pos" (.num 0)),
    dictGetD action "shoulder_lift.pos" (dictGetD action "joint_1.pos" (.num 0)),
    dictGetD action "elbow_flex.pos" (dictGetD action "joint_2.pos" (.num 0)),
    dictGetD action "joint_3.pos" (.num 0),
    dictGetD action "wrist_flex.pos" (dictGetD action "joint_4.pos" (.num 0)),
    dictGetD action "wrist_roll.pos" (dictGetD action "joint_5.pos" (.num 0)),
    dictGetD action "gripper.pos" (dictGetD action "joint_6.pos" (.num 0)) ]

/-- The errors raised by this code base (`lerobot.errors` provides
`DeviceAlreadyConnectedError` and `DeviceNotConnectedError`; the spec's
error taxonomy additionally names a `ConnectionTimeout` kind, which no
code under the available sources constructs — the constructor is present
so that spec claims about it can be stated and compared). -/
inductive LeError where
  | deviceAlreadyConnected
  | deviceNotConnected
  | connectionTimeout
deriving DecidableEq, Repr

/-- `Piper.send_action` (piper.py lines 90–108): raises
`DeviceNotConnectedError` when not connected, otherwise sends the seven
`positions` to the SDK and returns the action unchanged. -/
def send_action (connected : Bool) (action : PyDict) :
    Except LeError (List PyVal × PyDict) :=
  if connected then .ok (sendActionPositions action, action)
  else .error .deviceNotConnected

end Piper

/-! ## The `PiperClient` relay (`piper_client.py`)

The two ZMQ links are conflating (`zmq.CONFLATE, 1`): each holds at most
the most recently sent message, so a channel is an `Option` payload. -/

namespace PiperClient

/-- The client-visible state: the `_is_connected` flag and the two
conflated channels (the payload each would deliver next, if any). -/
structure ClientState where
  connected : Bool
  cmdChannel : Option PyDict
  obsChannel : Option PyDict
deriving DecidableEq, Repr

/-- Outcome of `self.zmq_observation_socket.recv_string()`
(piper_client.py line 90): the call carries no `zmq.NOBLOCK` flag, so on
an empty channel it blocks until a message arrives; on a non-empty
conflated channel it delivers the latest payload, which `json.loads`
decodes. -/
inductive RecvOutcome where
  | blocks
  | value (obs : PyDict)
  | err (e : Piper.LeError)
deriving DecidableEq, Repr

/-- `PiperClient.get_observation` (piper_client.py lines 88–91): one
blocking receive followed by a decode.  No connectivity check, no cache. -/
def get_observation (st : ClientState) : RecvOutcome :=
  match st.obsChannel with
  | none => .blocks
  | some o => .value o

/-- `PiperClient.send_action` (piper_client.py lines 93–96):
`json.dumps(action)` raises `TypeError` when some value is not
serializable; otherwise the encoding is sent on the conflating command
channel (replacing any unconsumed message) and the action itself is
returned. -/
inductive SendOutcome where
  | ok (st : ClientState) (returned : PyDict)
  | typeError
deriving DecidableEq, Repr

def send_action (st : ClientState) (action : PyDict) : SendOutcome :=
  if action.all (fun kv => serializable kv.2) then
    .ok { st with cmdChannel := some action } action
  else .typeError

/-- `PiperClient.connect` (piper_client.py lines 48–66).
`firstObsArrivalMs` abstracts the host side: the instant (ms after the
poll starts) at which the first observation message becomes available on
the observation channel, or `none` when the host is unreachable and none
ever arrives.  The single `poller.poll(self.connect_timeout_s * 1000)`
waits at most `connect_timeout_s * 1000` ms; there is no retry.  On a
missed deadline the code raises `DeviceNotConnectedError` and the
`_is_connected` flag is never set. -/
def connect (connectTimeoutS : Nat) (st : ClientState)
    (firstObsArrivalMs : Option Nat) : Except Piper.LeError ClientState :=
  if st.connected then .error .deviceAlreadyConnected
  else
    match firstObsArrivalMs with
    | none => .error .deviceNotConnected
    | some t =>
        if t ≤ connectTimeoutS * 1000 then .ok { st with connected := true }
        else .error .deviceNotConnected

end PiperClient

/-! ## The single-arm host loop (`piper_host.py`, `main`, lines 53–108) -/

namespace PiperHost

/-- The four possible outcomes of the `try` block of one iteration
(piper_host.py lines 62–75), matching its `except` arms:
* `again`      — `recv_string(zmq.NOBLOCK)` raised `zmq.Again` (no message);
* `parseError` — a message was received but `json.loads` raised
                 `JSONDecodeError`/`TypeError`;
* `unexpectedError` — the message parsed but a later call raised
                 (the `except Exception` arm);
* `cmd data`   — the message parsed to the dict `data` and
                 `robot.send_action` succeeded. -/
inductive CmdEvent where
  | again
  | parseError
  | unexpectedError
  | cmd (data : PyDict)
deriving DecidableEq, Repr

/-- Whether the event is a successfully processed command. -/
def CmdEvent.isCmd : CmdEvent → Bool
  | .cmd _ => true
  | _ => false

/-- The watchdog state carried across iterations (piper_host.py lines
53–54): `last_cmd_time` (ms) and `watchdog_active`. -/
structure HostState where
  lastCmdTime : Nat
  watchdogActive : Bool
deriving DecidableEq, Repr

/-- Everything one iteration interacts with: the command-receive outcome,
the time (ms) `time.time()` would return where `last_cmd_time` is
assigned (line 67), the time at the watchdog check (line 77), and the
driver observation of line 85. -/
structure Iter where
  event : CmdEvent
  tRecv : Nat
  tCheck : Nat
  obs : PyDict
deriving DecidableEq, Repr

/-- The externally visible effects of one iteration. -/
structure Effects where
  watchdogReset : Bool
  actionSent : Option PyDict
  stopCalled : Bool
  loggedParseFailure : Bool
  loggedStaleWarning : Bool
  obsSent : PyDict
deriving DecidableEq, Repr

/-- One iteration of the `while` body, piper_host.py lines 61–107, with
watchdog threshold `timeoutMs` (= `host.watchdog_timeout_ms`):
* `try` block (62–75): on a parsed command, filter it to
  `robot.action_space` keys, forward it, set `last_cmd_time` to the
  current time and clear `watchdog_active`; all failures leave the state
  untouched (parse failures are logged);
* watchdog check (77–83): if more than the threshold has elapsed since
  `last_cmd_time` and the watchdog is not yet active, log a warning, set
  it active and call `robot.stop()`;
* observation (85–98): always build `serializable_observation` from the
  driver observation and attempt the non-blocking push. -/
def step (timeoutMs : Nat) (st : HostState) (it : Iter) : HostState × Effects :=
  let afterTry :
      HostState × (Bool × Option PyDict × Bool) :=
    match it.event with
    | .cmd data =>
        let action := data.filter (fun kv => Piper.actionSpace.contains kv.1)
        (⟨it.tRecv, false⟩, (true, some action, false))
    | .again => (st, (false, none, false))
    | .parseError => (st, (false, none, true))
    | .unexpectedError => (st, (false, none, false))
  let st1 := afterTry.1
  let stale := decide (st1.lastCmdTime + timeoutMs < it.tCheck) && !st1.watchdogActive
  let st2 := if stale then { st1 with watchdogActive := true } else st1
  (st2,
   { watchdogReset := afterTry.2.1
     actionSent := afterTry.2.2.1
     stopCalled := stale
     loggedParseFailure := afterTry.2.2.2
     loggedStaleWarning := stale
     obsSent := serializableObservation it.obs })

/-- The loop over a schedule of iterations (the `while duration <
connection_time_s` loop runs each iteration in full; its exit is decided
only by the elapsed duration, never by an event). -/
def run (timeoutMs : Nat) (st : HostState) : List Iter → HostState × List Effects
  | [] => (st, [])
  | it :: rest =>
      let s := step timeoutMs st it
      let r := run timeoutMs s.1 rest
      (r.1, s.2 :: r.2)

/-- Number of `robot.stop()` calls over a run. -/
def stopCount (effs : List Effects) : Nat :=
  (effs.filter (fun e => e.stopCalled)).length

end PiperHost

/-! ## The bimanual host loop (`bimanual_piper_host.py`, `main`, lines 65–118) -/

namespace BiHost

/-- The watchdog state of the bimanual loop (lines 65–67):
`first_command_received`, `last_cmd_time` (s) and `watchdog_active`. -/
structure BiState where
  firstCommandReceived : Bool
  lastCmdTime : Nat
  watchdogActive : Bool
deriving DecidableEq, Repr

/-- One iteration's interactions; times are in seconds here. -/
structure Iter where
  event : PiperHost.CmdEvent
  tRecv : Nat
  tCheck : Nat
  obs : PyDict
deriving DecidableEq, Repr

/-- The hard-coded staleness threshold of line 90: `50_000_000` seconds. -/
def watchdogThresholdS : Nat := 50000000

/-- Modelled from the spec: `BimanualPiperFollower.action_features`
(`bimanual_piper_follower.py` is not among the available sources).  The
spec's design notes say the bimanual driver fans out each capability
call to its two owned single-arm drivers, "prefixing keys with
`left_`/`right_`", so its recognized action keys are the `left_`/`right_`
prefixed Piper joint keys. -/
def bimanualActionKeys : List String :=
  Piper.actionFeaturesKeys.map (fun k => "left_" ++ k)
    ++ Piper.actionFeaturesKeys.map (fun k => "right_" ++ k)

/-- One iteration of the bimanual `while True` body, lines 71–118.  The
`try` block (72–87) differs from the single-arm host: as soon as
`recv_string` succeeds — before `json.loads` is attempted — it sets
`first_command_received`, assigns `last_cmd_time` and clears
`watchdog_active`; the parsed dict is then forwarded to
`robot.send_action` unfiltered.  The watchdog check (89–97) additionally
requires `first_command_received`; on triggering it stops both arms
(modelled as one `stopCalled` effect).  The observation block (99–115)
is as in the single-arm host. -/
def step (st : BiState) (it : Iter) : BiState × PiperHost.Effects :=
  let afterTry :
      BiState × (Bool × Option PyDict × Bool) :=
    match it.event with
    | .cmd data => (⟨true, it.tRecv, false⟩, (true, some data, false))
    | .again => (st, (false, none, false))
    | .parseError => (⟨true, it.tRecv, false⟩, (true, none, true))
    | .unexpectedError => (⟨true, it.tRecv, false⟩, (true, none, false))
  let st1 := afterTry.1
  let stale := st1.firstCommandReceived
      && decide (st1.lastCmdTime + watchdogThresholdS < it.tCheck)
      && !st1.watchdogActive
  let st2 := if stale then { st1 with watchdogActive := true } else st1
  (st2,
   { watchdogReset := afterTry.2.1
     actionSent := afterTry.2.2.1
     stopCalled := stale
     loggedParseFailure := afterTry.2.2.2
     loggedStaleWarning := stale
     obsSent := serializableObservation it.obs })

/-- The bimanual loop over a schedule of iterations. -/
def run (st : BiState) : List Iter → BiState × List PiperHost.Effects
  | [] => (st, [])
  | it :: rest =>
      let s := step st it
      let r := run s.1 rest
      (r.1, s.2 :: r.2)

end BiHost

/-! ## Helper lemmas on the loop traces -/

namespace PiperHost

lemma stopCount_nil : stopCount [] = 0 := rfl

lemma stopCount_cons (e : Effects) (effs : List Effects) :
    stopCount (e :: effs) = (if e.stopCalled then 1 else 0) + stopCount effs := by
  by_cases h : e.stopCalled <;> simp [stopCount, List.filter, h, Nat.add_comm]

lemma run_cons (timeoutMs : Nat) (st : HostState) (it : Iter) (rest : List Iter) :
    run timeoutMs st (it :: rest) =
      ((run timeoutMs (step timeoutMs st it).1 rest).1,
       (step timeoutMs st it).2 :: (run timeoutMs (step timeoutMs st it).1 rest).2) := rfl

lemma run_length (timeoutMs : Nat) :
    ∀ (iters : List Iter) (st : HostState),
      (run timeoutMs st iters).2.length = iters.length := by
  intro iters
  induction iters with
  | nil => intro st; rfl
  | cons it rest ih => intro st; simp [run_cons, ih]

/-- From a non-command event, the `try` block leaves the state alone and
the iteration stops exactly when it newly crosses the threshold. -/
lemma step_nonCmd (timeoutMs : Nat) (st : HostState) (it : Iter)
    (h : it.event.isCmd = false) :
    (step timeoutMs st it).1 =
      (if st.lastCmdTime + timeoutMs < it.tCheck ∧ st.watchdogActive = false
       then { st with watchdogActive := true } else st)
    ∧ (step timeoutMs st it).2.stopCalled =
        (decide (st.lastCmdTime + timeoutMs < it.tCheck) && !st.watchdogActive) := by
  cases hev : it.event <;> simp [CmdEvent.isCmd, hev] at h ⊢ <;>
    · constructor
      · by_cases hc : st.lastCmdTime + timeoutMs < it.tCheck <;>
          by_cases ha : st.watchdogActive <;> simp [step, hev, hc, ha]
      · by_cases hc : st.lastCmdTime + timeoutMs < it.tCheck <;>
          by_cases ha : st.watchdogActive <;> simp [step, hev, hc, ha]

/-- Once the watchdog is active, iterations without a successful command
never stop again. -/
lemma run_active_noCmd (timeoutMs t0 : Nat) :
    ∀ (iters : List Iter), (∀ it ∈ iters, it.event.isCmd = false) →
      stopCount (run timeoutMs ⟨t0, true⟩ iters).2 = 0 := by
  intro iters
  induction iters with
  | nil => intro _; rfl
  | cons it rest ih =>
      intro h
      have hit : it.event.isCmd = false := h it (by simp)
      have hs := step_nonCmd timeoutMs ⟨t0, true⟩ it hit
      have h1 : (step timeoutMs ⟨t0, true⟩ it).1 = ⟨t0, true⟩ := by
        rw [hs.1]; simp
      rw [run_cons, stopCount_cons, hs.2, h1,
        ih (fun x hx => h x (by simp [hx]))]
      simp

/-- The single-arm host watchdog, started not-triggered at `t0` and fed
no successful command, stops exactly once iff some iteration's check time
exceeds `t0` by more than the threshold. -/
lemma run_noCmd_stopCount (timeoutMs t0 : Nat) :
    ∀ (iters : List Iter), (∀ it ∈ iters, it.event.isCmd = false) →
      stopCount (run timeoutMs ⟨t0, false⟩ iters).2 =
        if iters.any (fun it => decide (t0 + timeoutMs < it.tCheck)) then 1 else 0 := by
  intro iters
  induction iters with
  | nil => intro _; rfl
  | cons it rest ih =>
      intro h
      have hit : it.event.isCmd = false := h it (by simp)
      have hrest : ∀ x ∈ rest, x.event.isCmd = false := fun x hx => h x (by simp [hx])
      have hs := step_nonCmd timeoutMs ⟨t0, false⟩ it hit
      rw [run_cons, stopCount_cons, hs.2]
      by_cases hc : t0 + timeoutMs < it.tCheck
      · have h1 : (step timeoutMs ⟨t0, false⟩ it).1 = ⟨t0, true⟩ := by
          rw [hs.1]; simp [hc]
        rw [h1, run_active_noCmd timeoutMs t0 rest hrest]
        simp [hc, List.any_cons]
      · have h1 : (step timeoutMs ⟨t0, false⟩ it).1 = ⟨t0, false⟩ := by
          rw [hs.1]; simp [hc]
        rw [h1, ih hrest]
        simp [hc, List.any_cons]

end PiperHost

namespace BiHost

/-- With no message ever received, a bimanual iteration is a no-op on the
watchdog state and never stops. -/
lemma step_again (st : BiState) (it : Iter) (h : it.event = .again)
    (hf : st.firstCommandReceived = false) :
    (step st it).1 = st ∧ (step st it).2.stopCalled = false := by
  cases st
  simp_all [step]

/-- A bimanual iteration fed `zmq.Again` after the first command: the
state's timestamp is kept and it stops exactly on the fresh threshold
crossing. -/
lemma step_again_first (st : BiState) (it : Iter) (h : it.event = .again)
    (hf : st.firstCommandReceived = true) :
    (step st it).1 =
      (if st.lastCmdTime + watchdogThresholdS < it.tCheck ∧ st.watchdogActive = false
       then { st with watchdogActive := true } else st)
    ∧ (step st it).2.stopCalled =
        (decide (st.lastCmdTime + watchdogThresholdS < it.tCheck) && !st.watchdogActive) := by
  constructor
  · by_cases hc : st.lastCmdTime + watchdogThresholdS < it.tCheck <;>
      by_cases ha : st.watchdogActive <;> simp [step, h, hf, hc, ha]
  · by_cases hc : st.lastCmdTime + watchdogThresholdS < it.tCheck <;>
      by_cases ha : st.watchdogActive <;> simp [step, h, hf, hc, ha]

lemma biRun_cons (st : BiState) (it : Iter) (rest : List Iter) :
    run st (it :: rest) =
      ((run (step st it).1 rest).1, (step st it).2 :: (run (step st it).1 rest).2) := rfl

/-- A bimanual loop that never receives any message never stops. -/
lemma run_idle_noStop (t0 : Nat) (a : Bool) :
    ∀ (iters : List Iter), (∀ it ∈ iters, it.event = .again) →
      PiperHost.stopCount (run ⟨false, t0, a⟩ iters).2 = 0 := by
  intro iters
  induction iters with
  | nil => intro _; rfl
  | cons it rest ih =>
      intro h
      have hit : it.event = .again := h it (by simp)
      have hs := step_again ⟨false, t0, a⟩ it hit rfl
      rw [biRun_cons, PiperHost.stopCount_cons, hs.2, hs.1,
        ih (fun x hx => h x (by simp [hx]))]
      simp

/-- Bimanual: once triggered, further `zmq.Again` iterations never stop. -/
lemma run_active_again (t0 : Nat) :
    ∀ (iters : List Iter), (∀ it ∈ iters, it.event = .again) →
      PiperHost.stopCount (run ⟨true, t0, true⟩ iters).2 = 0 := by
  intro iters
  induction iters with
  | nil => intro _; rfl
  | cons it rest ih =>
      intro h
      have hit : it.event = .again := h it (by simp)
      have hs := step_again_first ⟨true, t0, true⟩ it hit rfl
      rw [biRun_cons, PiperHost.stopCount_cons, hs.2]
      have h1 : (step ⟨true, t0, true⟩ it).1 = ⟨true, t0, true⟩ := by
        rw [hs.1]; simp
      rw [h1, ih (fun x hx => h x (by simp [hx]))]
      simp

/-- Bimanual: after the first command, fed only `zmq.Again`, the loop
stops exactly once iff some check time crosses the threshold. -/
lemma run_armed_stopCount (t0 : Nat) :
    ∀ (iters : List Iter), (∀ it ∈ iters, it.event = .again) →
      PiperHost.stopCount (run ⟨true, t0, false⟩ iters).2 =
        if iters.any (fun it => decide (t0 + watchdogThresholdS < it.tCheck)) then 1
        else 0 := by
  intro iters
  induction iters with
  | nil => intro _; rfl
  | cons it rest ih =>
      intro h
      have hit : it.event = .again := h it (by simp)
      have hrest : ∀ x ∈ rest, x.event = .again := fun x hx => h x (by simp [hx])
      have hs := step_again_first ⟨true, t0, false⟩ it hit rfl
      rw [biRun_cons, PiperHost.stopCount_cons, hs.2]
      by_cases hc : t0 + watchdogThresholdS < it.tCheck
      · have h1 : (step ⟨true, t0, false⟩ it).1 = ⟨true, t0, true⟩ := by
          rw [hs.1]; simp [hc]
        rw [h1, run_active_again t0 rest hrest]
        simp [hc, List.any_cons]
      · have h1 : (step ⟨true, t0, false⟩ it).1 = ⟨true, t0, false⟩ := by
          rw [hs.1]; simp [hc]
        rw [h1, ih hrest]
        simp [hc, List.any_cons]

end BiHost

/-! ## The claims -/

/-- C1: in a host loop with watchdog threshold T, once more than T
elapses since the last watchdog reset, `robot.stop()` is invoked exactly
once before the next successful command reset, and repeated iterations
while the watchdog stays triggered never invoke it again.  Stated for the
single-arm host (started from any reset point `t0`, not triggered, over
any schedule with no successfully processed command) and for the
bimanual host (after its first command, over any schedule of empty
polls): the number of `stop()` calls is one if some iteration's check
time exceeds `t0` by more than the threshold, and zero otherwise. -/
theorem watchdog_stops_exactly_once_per_stale_episode :
    (∀ (timeoutMs t0 : Nat) (iters : List PiperHost.Iter),
        (∀ it ∈ iters, it.event.isCmd = false) →
        PiperHost.stopCount (PiperHost.run timeoutMs ⟨t0, false⟩ iters).2 =
          if iters.any (fun it => decide (t0 + timeoutMs < it.tCheck)) then 1 else 0)
    ∧ (∀ (t0 : Nat) (iters : List BiHost.Iter),
        (∀ it ∈ iters, it.event = .again) →
        PiperHost.stopCount (BiHost.run ⟨true, t0, false⟩ iters).2 =
          if iters.any (fun it => decide (t0 + BiHost.watchdogThresholdS < it.tCheck))
          then 1 else 0) :=
  ⟨PiperHost.run_noCmd_stopCount, BiHost.run_armed_stopCount⟩

/-- Witness for C1: threshold 500 ms, reset at 0, three polls at 100 ms,
600 ms and 900 ms — the latter two both stale: exactly one stop. -/
theorem watchdog_stops_exactly_once_per_stale_episode_witness :
    PiperHost.stopCount
      (PiperHost.run 500 ⟨0, false⟩
        [⟨.again, 100, 100, []⟩, ⟨.again, 600, 600, []⟩, ⟨.again, 900, 900, []⟩]).2 = 1 := by
  have h := watchdog_stops_exactly_once_per_stale_episode.1 500 0
    [⟨.again, 100, 100, []⟩, ⟨.again, 600, 600, []⟩, ⟨.again, 900, 900, []⟩]
    (by decide)
  rw [h]; decide

/-- C2 as amended: in the bimanual host loop, `stop()` is never invoked
by the watchdog when no command message has ever been received, no matter
how much time elapses; in the single-arm host loop, by contrast, the
watchdog measures from loop start, so once more than the threshold
elapses since loop start it does invoke `stop()` even though no command
was ever received. -/
theorem watchdog_idle_stop_behavior_by_host :
    (∀ (t0 : Nat) (a : Bool) (iters : List BiHost.Iter),
        (∀ it ∈ iters, it.event = .again) →
        PiperHost.stopCount (BiHost.run ⟨false, t0, a⟩ iters).2 = 0)
    ∧ (∀ (timeoutMs t0 : Nat) (iters : List PiperHost.Iter),
        (∀ it ∈ iters, it.event = .again) →
        (∃ it ∈ iters, t0 + timeoutMs < it.tCheck) →
        1 ≤ PiperHost.stopCount (PiperHost.run timeoutMs ⟨t0, false⟩ iters).2) := by
  constructor
  · exact fun t0 a => BiHost.run_idle_noStop t0 a
  · intro timeoutMs t0 iters h hex
    have hcmd : ∀ it ∈ iters, it.event.isCmd = false := by
      intro it hit; rw [h it hit]; rfl
    rw [PiperHost.run_noCmd_stopCount timeoutMs t0 iters hcmd]
    have : iters.any (fun it => decide (t0 + timeoutMs < it.tCheck)) = true := by
      obtain ⟨it, hit, hlt⟩ := hex
      exact List.any_eq_true.mpr ⟨it, hit, by simpa using hlt⟩
    rw [this]
    simp

/-- Witness for C2 (amended): the bimanual loop polls at 100 s and at
10⁹ s without ever receiving a command and never stops. -/
theorem watchdog_idle_stop_behavior_by_host_witness :
    PiperHost.stopCount
      (BiHost.run ⟨false, 0, false⟩
        [⟨.again, 100, 100, []⟩, ⟨.again, 1000000000, 1000000000, []⟩]).2 = 0 :=
  watchdog_idle_stop_behavior_by_host.1 0 false
    [⟨.again, 100, 100, []⟩, ⟨.again, 1000000000, 1000000000, []⟩] (by decide)

/-- Counterexample to C2 as stated: the single-arm host, watchdog
threshold 500 ms, started at time 0, receives no command ever; at its
poll at 600 ms the watchdog has already invoked `stop()` once. -/
theorem piper_host_stops_without_any_command :
    PiperHost.stopCount
      (PiperHost.run 500 ⟨0, false⟩ [⟨.again, 600, 600, []⟩]).2 = 1 := by decide

/-- C3 as amended: in the single-arm host loop the watchdog (timestamp
and triggered flag) is reset exactly when the received message is parsed
and forwarded successfully, and a malformed message leaves the
last-command timestamp unchanged; in the bimanual host loop the watchdog
is reset whenever any message is received — including malformed ones —
because the reset precedes parsing. -/
theorem watchdog_reset_condition_by_host :
    (∀ (timeoutMs : Nat) (st : PiperHost.HostState) (it : PiperHost.Iter),
        (PiperHost.step timeoutMs st it).2.watchdogReset = it.event.isCmd
        ∧ (it.event = .parseError →
            (PiperHost.step timeoutMs st it).1.lastCmdTime = st.lastCmdTime))
    ∧ (∀ (st : BiHost.BiState) (it : BiHost.Iter),
        (BiHost.step st it).2.watchdogReset = true ↔ it.event ≠ .again) := by
  constructor
  · intro timeoutMs st it
    constructor
    · cases hev : it.event <;>
        by_cases hc : st.lastCmdTime + timeoutMs < it.tCheck <;>
        by_cases ha : st.watchdogActive <;>
        simp [PiperHost.step, PiperHost.CmdEvent.isCmd, hev, hc, ha]
    · intro hev
      by_cases hc : st.lastCmdTime + timeoutMs < it.tCheck <;>
        by_cases ha : st.watchdogActive <;>
        simp [PiperHost.step, hev, hc, ha]
  · intro st it
    cases hev : it.event <;>
      by_cases hf : st.firstCommandReceived <;>
      by_cases hc : st.lastCmdTime + BiHost.watchdogThresholdS < it.tCheck <;>
      by_cases ha : st.watchdogActive <;>
      simp [BiHost.step, hev, hf, hc, ha]

/-- Witness for C3 (amended): a malformed message in the single-arm host
does not reset the watchdog and keeps the last-command timestamp. -/
theorem watchdog_reset_condition_by_host_witness :
    (PiperHost.step 500 ⟨42, false⟩ ⟨.parseError, 50, 50, []⟩).1.lastCmdTime = 42 :=
  (watchdog_reset_condition_by_host.1 500 ⟨42, false⟩ ⟨.parseError, 50, 50, []⟩).2 rfl

/-- Counterexample to C3 as stated: in the bimanual host loop a malformed
(unparseable) message does change the watchdog state — from triggered
with `last_cmd_time = 0`, receiving a malformed message at time 5 moves
the timestamp to 5 and clears the triggered flag. -/
theorem bimanual_malformed_message_resets_watchdog :
    (BiHost.step ⟨true, 0, true⟩ ⟨.parseError, 5, 5, []⟩).1 = ⟨true, 5, false⟩
    ∧ (⟨true, 5, false⟩ : BiHost.BiState) ≠ ⟨true, 0, true⟩ := by decide

/-- C4 as amended: in the single-arm host loop, the mapping forwarded to
`send_action` is exactly the parsed mapping filtered to the
(spec-modelled) `robot.action_space` keys — a pair is forwarded iff it
occurs in the parsed mapping and its key is recognized; the bimanual host
loop, by contrast, forwards the parsed mapping unfiltered. -/
theorem host_action_filtering_by_host :
    (∀ (timeoutMs : Nat) (st : PiperHost.HostState) (it : PiperHost.Iter)
        (data : PyDict),
        it.event = .cmd data →
        (PiperHost.step timeoutMs st it).2.actionSent =
          some (data.filter (fun kv => Piper.actionSpace.contains kv.1))
        ∧ ∀ kv : String × PyVal,
            kv ∈ data.filter (fun kv => Piper.actionSpace.contains kv.1) ↔
              kv ∈ data ∧ Piper.actionSpace.contains kv.1 = true)
    ∧ (∀ (st : BiHost.BiState) (it : BiHost.Iter) (data : PyDict),
        it.event = .cmd data → (BiHost.step st it).2.actionSent = some data) := by
  constructor
  · intro timeoutMs st it data hev
    constructor
    · by_cases hc : it.tRecv + timeoutMs < it.tCheck <;>
        simp [PiperHost.step, hev, hc]
    · intro kv
      simp [List.mem_filter]
  · intro st it data hev
    by_cases hc : it.tRecv + BiHost.watchdogThresholdS < it.tCheck <;>
      simp [BiHost.step, hev, hc]

/-- Witness for C4 (amended): the single-arm host, handed the parsed
mapping `{"joint_0.pos": 7, "foo": 1}`, forwards only the recognized
`joint_0.pos` pair. -/
theorem host_action_filtering_by_host_witness :
    (PiperHost.step 500 ⟨0, false⟩
        ⟨.cmd [("joint_0.pos", .num 7), ("foo", .num 1)], 5, 5, []⟩).2.actionSent =
      some [("joint_0.pos", .num 7)] := by
  have h := (host_action_filtering_by_host.1 500 ⟨0, false⟩
    ⟨.cmd [("joint_0.pos", .num 7), ("foo", .num 1)], 5, 5, []⟩
    [("joint_0.pos", .num 7), ("foo", .num 1)] rfl).1
  rw [h]; decide

/-- Counterexample to C4 as stated: the bimanual host forwards the parsed
mapping `{"foo": 1}` to `send_action` even though `"foo"` is recognized
neither by the (spec-modelled) bimanual driver keys nor by the Piper
driver keys — the unrecognized pair is not dropped before forwarding. -/
theorem bimanual_host_forwards_unrecognized_key :
    (BiHost.step ⟨true, 0, false⟩ ⟨.cmd [("foo", .num 1)], 5, 5, []⟩).2.actionSent =
      some [("foo", .num 1)]
    ∧ BiHost.bimanualActionKeys.contains "foo" = false
    ∧ Piper.actionSpace.contains "foo" = false := by decide

/-- C5 as amended: `get_observation()` performs exactly one receive on
the conflated observation channel, and that receive blocks at the channel
level — on an empty channel the call blocks until an observation arrives
(it neither returns a cached observation nor raises `NotConnected`, and
it never consults the connected flag); when an observation is available
it returns the decoded most recent observation. -/
theorem client_get_observation_blocking_receive :
    ∀ st : PiperClient.ClientState,
      (st.obsChannel = none → PiperClient.get_observation st = .blocks)
      ∧ (∀ o, st.obsChannel = some o → PiperClient.get_observation st = .value o)
      ∧ PiperClient.get_observation st =
          PiperClient.get_observation ⟨true, st.cmdChannel, st.obsChannel⟩ := by
  intro st
  refine ⟨fun h => ?_, fun o h => ?_, ?_⟩
  · simp [PiperClient.get_observation, h]
  · simp [PiperClient.get_observation, h]
  · cases st with
    | mk c cmd obsc => cases obsc <;> simp [PiperClient.get_observation]

/-- Witness for C5 (amended): with the latest observation
`{"joint_0.pos": 3}` on the channel, `get_observation` returns it. -/
theorem client_get_observation_blocking_receive_witness :
    PiperClient.get_observation ⟨true, none, some [("joint_0.pos", .num 3)]⟩ =
      .value [("joint_0.pos", .num 3)] :=
  (client_get_observation_blocking_receive
    ⟨true, none, some [("joint_0.pos", .num 3)]⟩).2.1 [("joint_0.pos", .num 3)] rfl

/-- Counterexample to C5 as stated: on a client that was never connected
and for which no observation has yet arrived, `get_observation` does not
fail with `NotConnected` (nor return a cached observation) — the receive
simply blocks. -/
theorem client_get_observation_never_connected_blocks :
    PiperClient.get_observation ⟨false, none, none⟩ = .blocks
    ∧ PiperClient.RecvOutcome.blocks ≠ .err .deviceNotConnected := by decide

/-- C6 as amended: `connect()` against a host from which no observation
arrives within `connect_timeout_s` fails after its single bounded poll of
`connect_timeout_s * 1000` ms — it does not retry and does not succeed,
so the connected flag is never set — but the error it fails with is
`DeviceNotConnectedError`, not an error of the spec's `ConnectionTimeout`
kind. -/
theorem client_connect_timeout_fatal :
    ∀ (timeoutS : Nat) (st : PiperClient.ClientState) (arrival : Option Nat),
      st.connected = false →
      (arrival = none ∨ ∃ t, arrival = some t ∧ timeoutS * 1000 < t) →
      PiperClient.connect timeoutS st arrival = .error .deviceNotConnected := by
  intro timeoutS st arrival hconn harr
  rcases harr with h | ⟨t, ht, hlt⟩
  · simp [PiperClient.connect, hconn, h]
  · simp [PiperClient.connect, hconn, ht, Nat.not_le.mpr hlt]

/-- Witness for C6 (amended): a 5 s timeout against a host that never
sends an observation fails with `DeviceNotConnectedError`. -/
theorem client_connect_timeout_fatal_witness :
    PiperClient.connect 5 ⟨false, none, none⟩ none = .error .deviceNotConnected :=
  client_connect_timeout_fatal 5 ⟨false, none, none⟩ none rfl (Or.inl rfl)

/-- Counterexample to C6 as stated: the error raised on the missed
connect deadline is `DeviceNotConnectedError` — the kind the spec's
taxonomy calls `NotConnected` — and not a `ConnectionTimeout` error. -/
theorem client_connect_timeout_error_kind :
    PiperClient.connect 5 ⟨false, none, none⟩ none = .error .deviceNotConnected
    ∧ Piper.LeError.deviceNotConnected ≠ Piper.LeError.connectionTimeout :=
  ⟨rfl, by decide⟩

/-- C7: the serializable copy of a driver observation keeps every field
whose value encodes successfully, replaces every field whose value fails
encoding by that value's string representation, is itself entirely
serializable (so building and pushing it never raises), and on a mapping
of supported (serializable) value types it equals the original — so
encoding then decoding such a mapping yields an equal mapping. -/
theorem serializable_observation_copy_spec :
    ∀ obs : PyDict,
      (serializableObservation obs).length = obs.length
      ∧ (∀ p ∈ serializableObservation obs, serializable p.2 = true)
      ∧ (∀ i, i < obs.length →
          (serializableObservation obs).getD i ("", .num 0) =
            (if serializable (obs.getD i ("", .num 0)).2
             then obs.getD i ("", .num 0)
             else ((obs.getD i ("", .num 0)).1,
                   .str (pyStr (obs.getD i ("", .num 0)).2))))
      ∧ ((∀ p ∈ obs, serializable p.2 = true) → serializableObservation obs = obs) := by
  intro obs
  refine ⟨by simp [serializableObservation], ?_, ?_, ?_⟩
  · intro p hp
    simp only [serializableObservation, List.mem_map] at hp
    obtain ⟨kv, _, heq⟩ := hp
    by_cases hs : serializable kv.2 = true
    · rw [← heq, if_pos hs]; exact hs
    · rw [← heq, if_neg hs]; rfl
  · induction obs with
    | nil => intro i hi; simp at hi
    | cons kv rest ih =>
        intro i hi
        cases i with
        | zero => simp [serializableObservation]
        | succ j =>
            have hj : j < rest.length := by simpa using hi
            simpa [serializableObservation] using ih j hj
  · intro hall
    induction obs with
    | nil => rfl
    | cons kv rest ih =>
        have h1 : serializable kv.2 = true := hall kv (by simp)
        have h2 : serializableObservation rest = rest :=
          ih (fun p hp => hall p (by simp [hp]))
        simp [serializableObservation, h1] at h2 ⊢
        exact h2

/-- Witness for C7: on `{"joint_0.pos": 3, "cam": <frame>}` the copy
keeps the serializable field and replaces the camera frame by its string
representation. -/
theorem serializable_observation_copy_spec_witness :
    (serializableObservation [("joint_0.pos", .num 3), ("cam", .obj "frame0")]).getD 1
        ("", .num 0) = ("cam", .str "frame0") := by
  have h := (serializable_observation_copy_spec
    [("joint_0.pos", .num 3), ("cam", .obj "frame0")]).2.2.1 1 (by decide)
  rw [h]; decide

/-- C8: in any single-arm host iteration whose received command fails to
parse (e.g. the string `"{not json"` raising `JSONDecodeError`), the
failure is logged, no action is forwarded to the driver, the observation
push on the observation channel still occurs in that same iteration with
the serializable copy of the driver observation, and the loop does not
terminate — every scheduled later iteration still runs. -/
theorem malformed_command_iteration_behavior :
    ∀ (timeoutMs : Nat) (st : PiperHost.HostState) (it : PiperHost.Iter)
      (rest : List PiperHost.Iter),
      it.event = .parseError →
      (PiperHost.step timeoutMs st it).2.loggedParseFailure = true
      ∧ (PiperHost.step timeoutMs st it).2.actionSent = none
      ∧ (PiperHost.step timeoutMs st it).2.obsSent = serializableObservation it.obs
      ∧ (PiperHost.run timeoutMs st (it :: rest)).2.length = rest.length + 1 := by
  intro timeoutMs st it rest hev
  refine ⟨?_, ?_, ?_, ?_⟩
  · by_cases hc : st.lastCmdTime + timeoutMs < it.tCheck <;>
      by_cases ha : st.watchdogActive <;> simp [PiperHost.step, hev, hc, ha]
  · by_cases hc : st.lastCmdTime + timeoutMs < it.tCheck <;>
      by_cases ha : st.watchdogActive <;> simp [PiperHost.step, hev, hc, ha]
  · by_cases hc : st.lastCmdTime + timeoutMs < it.tCheck <;>
      by_cases ha : st.watchdogActive <;> simp [PiperHost.step, hev, hc, ha]
  · rw [PiperHost.run_length]; rfl

/-- Witness for C8: a malformed command at 50 ms (threshold 500 ms, one
later iteration scheduled): parse failure logged, nothing forwarded, the
observation `{"cam": <frame>}` still pushed (frame stringified), and the
remaining iteration still runs. -/
theorem malformed_command_iteration_behavior_witness :
    (PiperHost.step 500 ⟨0, false⟩
        ⟨.parseError, 50, 50, [("cam", .obj "frame0")]⟩).2.loggedParseFailure = true
    ∧ (PiperHost.step 500 ⟨0, false⟩
        ⟨.parseError, 50, 50, [("cam", .obj "frame0")]⟩).2.actionSent = none
    ∧ (PiperHost.step 500 ⟨0, false⟩
        ⟨.parseError, 50, 50, [("cam", .obj "frame0")]⟩).2.obsSent =
        serializableObservation [("cam", .obj "frame0")]
    ∧ (PiperHost.run 500 ⟨0, false⟩
        [⟨.parseError, 50, 50, [("cam", .obj "frame0")]⟩,
         ⟨.again, 66, 66, []⟩]).2.length = 1 + 1 :=
  malformed_command_iteration_behavior 500 ⟨0, false⟩
    ⟨.parseError, 50, 50, [("cam", .obj "frame0")]⟩ [⟨.again, 66, 66, []⟩] rfl

/-- C9: on a connected robot, `Piper.send_action` sends to the SDK, for
each joint `i < 7`, the value found under the leader-style key (when one
exists for that joint) or else under the `joint_i.pos` fallback key, and
the integer `0` when the action contains neither key — a joint whose keys
are absent is commanded to position 0 rather than left unchanged. -/
theorem piper_send_action_joint_defaults :
    ∀ action : PyDict,
      Piper.send_action true action = .ok (Piper.sendActionPositions action, action)
      ∧ Piper.sendActionPositions action =
          (List.range 7).map (fun i =>
            match Piper.leaderKey i with
            | some l => dictGetD action l (dictGetD action (Piper.jointKey i) (.num 0))
            | none => dictGetD action (Piper.jointKey i) (.num 0))
      ∧ (∀ i, i < 7 →
          dictGet action ((Piper.leaderKey i).getD (Piper.jointKey i)) = none →
          dictGet action (Piper.jointKey i) = none →
          (Piper.sendActionPositions action).getD i (.num 0) = .num 0) := by
  intro action
  refine ⟨rfl, rfl, ?_⟩
  intro i hi h1 h2
  interval_cases i
  · simp [Piper.sendActionPositions, dictGetD,
      show dictGet action "shoulder_pan.pos" = none from h1,
      show dictGet action "joint_0.pos" = none from h2]
  · simp [Piper.sendActionPositions, dictGetD,
      show dictGet action "shoulder_lift.pos" = none from h1,
      show dictGet action "joint_1.pos" = none from h2]
  · simp [Piper.sendActionPositions, dictGetD,
      show dictGet action "elbow_flex.pos" = none from h1,
      show dictGet action "joint_2.pos" = none from h2]
  · simp [Piper.sendActionPositions, dictGetD,
      show dictGet action "joint_3.pos" = none from h2]
  · simp [Piper.sendActionPositions, dictGetD,
      show dictGet action "wrist_flex.pos" = none from h1,
      show dictGet action "joint_4.pos" = none from h2]
  · simp [Piper.sendActionPositions, dictGetD,
      show dictGet action "wrist_roll.pos" = none from h1,
      show dictGet action "joint_5.pos" = none from h2]
  · simp [Piper.sendActionPositions, dictGetD,
      show dictGet action "gripper.pos" = none from h1,
      show dictGet action "joint_6.pos" = none from h2]

/-- Witness for C9: the action `{"shoulder_pan.pos": 11}` commands joint
0 to 11 and every other joint — whose keys are absent — to 0. -/
theorem piper_send_action_joint_defaults_witness :
    Piper.send_action true [("shoulder_pan.pos", .num 11)] =
      .ok (Piper.sendActionPositions [("shoulder_pan.pos", .num 11)],
           [("shoulder_pan.pos", .num 11)])
    ∧ (Piper.sendActionPositions [("shoulder_pan.pos", .num 11)]).getD 3 (.num 0) =
        .num 0 := by
  refine ⟨(piper_send_action_joint_defaults [("shoulder_pan.pos", .num 11)]).1, ?_⟩
  have h := (piper_send_action_joint_defaults [("shoulder_pan.pos", .num 11)]).2.2
    3 (by decide) (by decide) (by decide)
  exact h

/-- C10: on a connected client, `send_action(action)` — for any action
payload its wire encoding accepts — places the encoded action on the
command channel and returns exactly the mapping it was given, unmodified. -/
theorem client_send_action_echo :
    ∀ (st : PiperClient.ClientState) (action : PyDict),
      st.connected = true →
      (∀ kv ∈ action, serializable kv.2 = true) →
      PiperClient.send_action st action =
        .ok { st with cmdChannel := some action } action := by
  intro st action _ hser
  have h : action.all (fun kv => serializable kv.2) = true :=
    List.all_eq_true.mpr (fun kv hkv => hser kv hkv)
  simp [PiperClient.send_action, h]

/-- Witness for C10: sending `{"joint_0.pos": 5}` from a connected client
returns the very same mapping. -/
theorem client_send_action_echo_witness :
    PiperClient.send_action ⟨true, none, none⟩ [("joint_0.pos", .num 5)] =
      .ok ⟨true, some [("joint_0.pos", .num 5)], none⟩ [("joint_0.pos", .num 5)] :=
  client_send_action_echo ⟨true, none, none⟩ [("joint_0.pos", .num 5)] rfl
    (by decide)
